import Mathlib

/-!
Verification of the QuestBot XP & Leveling Engine (src/main.py and
src/unnamed/part_000, a near-duplicate "bot 4.py" that extends main.py with
role reconciliation and the total-XP aggregator).

Each Python construct relevant to the frozen claims is shallowly embedded:

* the SQLite `users`, `quests` and `settings` tables become lists of row
  structures, with the schema's constraint `user_id INTEGER PRIMARY KEY`
  modelled faithfully (an INSERT whose user_id already appears in any row
  raises, exactly as sqlite3 raises IntegrityError);
* synchronous Python methods become pure functions threading the table
  state; methods whose SQL can raise return `Except DBError`;
* the asyncio event loop is modelled where a claim needs it (claim C1) by a
  micro-step scheduler over the read and write steps of `update_user_xp`;
* Discord platform state (guilds, roles, members) is modelled explicitly for
  the aggregator and the role-reconciliation engine, with platform failures
  (`discord.Forbidden` etc.) injected through a failure pattern.
-/

namespace QuestBot

/-! Level table (`LEVEL_THRESHOLDS` dict and `calculate_level`) -/

/-- The `LEVEL_THRESHOLDS` dict of both source files: level ↦ minimum XP.
Out-of-range keys never occur in the code paths we model (`calculate_level`
indexes levels 10 down to 1, and the aggregator uses `.get(level_num, 0)`
after checking `1 <= level_num <= 10`); we return the `.get` default 0. -/
def LEVEL_THRESHOLDS : Nat → Int
  | 1 => 0
  | 2 => 100
  | 3 => 500
  | 4 => 1200
  | 5 => 2200
  | 6 => 3500
  | 7 => 5100
  | 8 => 7000
  | 9 => 9200
  | 10 => 11700
  | _ => 0

/-- The `calculate_level` method: the loop `for level in range(10, 0, -1): if xp >=
LEVEL_THRESHOLDS[level]: return level` unrolled in its execution order,
with the final `return 1` as the fallback. -/
def calculate_level (xp : Int) : Nat :=
  if LEVEL_THRESHOLDS 10 ≤ xp then 10
  else if LEVEL_THRESHOLDS 9 ≤ xp then 9
  else if LEVEL_THRESHOLDS 8 ≤ xp then 8
  else if LEVEL_THRESHOLDS 7 ≤ xp then 7
  else if LEVEL_THRESHOLDS 6 ≤ xp then 6
  else if LEVEL_THRESHOLDS 5 ≤ xp then 5
  else if LEVEL_THRESHOLDS 4 ≤ xp then 4
  else if LEVEL_THRESHOLDS 3 ≤ xp then 3
  else if LEVEL_THRESHOLDS 2 ≤ xp then 2
  else if LEVEL_THRESHOLDS 1 ≤ xp then 1
  else 1

/-! XP ledger: the SQLite `users` table, `get_user_data`, `update_user_xp` -/

/-- A row of the `users` table. -/
structure UserRow where
  user_id : Int
  guild_id : Int
  xp : Int
  level : Nat
deriving DecidableEq

/-- The `users` table, in insertion order. -/
abbrev UsersTable := List UserRow

/-- The row filter of `WHERE user_id = ? AND guild_id = ?`. -/
def keyMatch (u g : Int) (r : UserRow) : Bool :=
  r.user_id == u && r.guild_id == g

/-- The sqlite3 exceptions our modelled statements can raise. -/
inductive DBError
  | primaryKeyConflict
deriving DecidableEq

/-- The statement `INSERT INTO users (user_id, guild_id, xp, level) VALUES (?, ?, 0, 1)`.
The schema declares `user_id INTEGER PRIMARY KEY` (the pair is only UNIQUE),
so sqlite3 raises IntegrityError whenever any existing row, in any guild,
already carries this user_id. -/
def insertUser (t : UsersTable) (u g : Int) : Except DBError UsersTable :=
  if t.any (fun r => r.user_id == u) then .error .primaryKeyConflict
  else .ok (t ++ [⟨u, g, 0, 1⟩])

/-- The `get_user_data` method: SELECT the row by (user_id, guild_id); on a miss, lazily
INSERT a zeroed row and report `xp=0, level=1`. We model the live-connection
case (`db_connection` non-null). -/
def get_user_data (t : UsersTable) (u g : Int) : Except DBError (UsersTable × Int × Nat) :=
  match t.find? (keyMatch u g) with
  | some r => .ok (t, r.xp, r.level)
  | none => (insertUser t u g).map (fun t2 => (t2, 0, 1))

/-- A scheduled `update_user_level_role` task (the arguments the code hands to
`asyncio.create_task`). -/
structure ReconcileTask where
  user_id : Int
  guild_id : Int
  old_level : Nat
  new_level : Nat
deriving DecidableEq

/-- The statement `UPDATE users SET xp = ?, level = ? WHERE user_id = ? AND guild_id = ?`. -/
def updateRow (t : UsersTable) (u g : Int) (xp : Int) (lvl : Nat) : UsersTable :=
  t.map (fun r => if keyMatch u g r then { r with xp := xp, level := lvl } else r)

/-- The `update_user_xp` method (part_000 lines 104-122; the main.py version is the same
minus the scheduled task): read-modify-write of the row, clamping at 0 and
recomputing the level; the reconcile task is scheduled iff the level changed.
The whole body is synchronous Python (no await), which claim C1's scheduler
model relies on. -/
def update_user_xp (t : UsersTable) (u g : Int) (xp_change : Int) :
    Except DBError (UsersTable × Int × Nat × List ReconcileTask) :=
  match get_user_data t u g with
  | .error e => .error e
  | .ok (t1, cur_xp, old_level) =>
    let new_xp := max 0 (cur_xp + xp_change)
    let new_level := calculate_level new_xp
    let tasks := if old_level ≠ new_level then [⟨u, g, old_level, new_level⟩] else []
    .ok (updateRow t1 u g new_xp new_level, new_xp, new_level, tasks)

/-- The xp/level an operation keyed at (u, g) observes: the stored row, or the
`xp=0, level=1` default that `get_user_data` would materialise on a miss. -/
def effectiveData (t : UsersTable) (u g : Int) : Int × Nat :=
  ((t.find? (keyMatch u g)).map (fun r => (r.xp, r.level))).getD (0, 1)

/-- Invariant `level == levelFor(xp)` for every stored row (claim C3's invariant). -/
def levelInvariant (t : UsersTable) : Prop :=
  ∀ r ∈ t, r.level = calculate_level r.xp

/-! Claim C1: interleaving model of concurrent `update_user_xp` calls

`update_user_xp` performs SELECT (via `get_user_data`), computes
`max(0, xp + delta)` in Python locals, then UPDATEs — with no `await`
anywhere between the read and the write: it is a plain synchronous `def`,
and sqlite3 calls block the event loop. discord.py dispatches every handler
on one asyncio event loop, which switches between handlers only at `await`
points, so no realizable schedule separates one call's read from its write.
We model each pending adjust against one fixed (memberId, communityId) row
as a two-micro-step thread over the shared stored xp, and quantify over
every schedule the loop can produce: each handler's read/write pair runs
back to back, in an arbitrary service order. -/

/-- The clamped delta application of one `update_user_xp` call
(`new_xp = max(0, current + xp_change)`); the level column is a pure
projection `calculate_level new_xp` of the written xp and plays no part in
the race. -/
def applyDelta (x d : Int) : Int := max 0 (x + d)

/-- A pending `update_user_xp(u, g, delta)` handler: `pc = 0` before its
SELECT, `pc = 1` once the Python locals hold the read xp, `pc = 2` after its
UPDATE committed. -/
structure AdjThread where
  delta : Int
  pc : Nat
  localXp : Int
deriving DecidableEq

/-- A handler that has not yet run. -/
def initThread (d : Int) : AdjThread := ⟨d, 0, 0⟩

/-- One micro-step of a handler against the shared stored xp. -/
def threadStep (shared : Int) (t : AdjThread) : Int × AdjThread :=
  match t.pc with
  | 0 => (shared, ⟨t.delta, 1, shared⟩)
  | 1 => (max 0 (t.localXp + t.delta), ⟨t.delta, 2, t.localXp⟩)
  | _ => (shared, t)

/-- Run a schedule: each entry advances the named handler by one micro-step. -/
def runSched : Int → (Nat → AdjThread) → List Nat → Int
  | s, _, [] => s
  | s, ths, i :: rest =>
    runSched (threadStep s (ths i)).1 (Function.update ths i (threadStep s (ths i)).2) rest

/-- The schedules the event loop can realize for handlers whose read-modify-
write region holds no await: each serviced handler runs its read and its
write consecutively. -/
def atomicSchedule : List Nat → List Nat
  | [] => []
  | i :: rest => i :: i :: atomicSchedule rest

/-! Quest completion tracker: the `quests` table and `on_reaction_add` -/

/-- A row of the `quests` table (`completed_users` is the JSON array the code
decodes to a Python list). -/
structure QuestRow where
  message_id : Int
  guild_id : Int
  channel_id : Int
  title : String
  content : String
  completed_users : List Int
deriving DecidableEq

/-- The `quests` table, in insertion order. -/
abbrev QuestsTable := List QuestRow

/-- The row filter of `WHERE message_id = ?` on the quests table. -/
def questMatch (mid : Int) (q : QuestRow) : Bool :=
  q.message_id == mid

/-- The database state the reaction handler touches. -/
structure BotState where
  users : UsersTable
  quests : QuestsTable
deriving DecidableEq

/-- The `on_reaction_add` handler (identical in both source files): ignore bot reactions
and non-checkmark emojis; look the quest up by the reacted message id; if the
reactor has not completed it, award 50 XP through `update_user_xp`, append
the reactor to `completed_users` and UPDATE the quest row. If the award
raises (the C9 primary-key conflict), the exception aborts the handler
before the append and quest UPDATE, so no state changes. The guild id is
`reaction.message.guild.id`. -/
def on_reaction_add (st : BotState) (message_id user_id guild_id : Int)
    (userIsBot emojiIsCheck : Bool) : BotState :=
  if userIsBot then st
  else if !emojiIsCheck then st
  else
    match st.quests.find? (questMatch message_id) with
    | none => st
    | some q =>
      if user_id ∈ q.completed_users then st
      else
        match update_user_xp st.users user_id guild_id 50 with
        | .error _ => st
        | .ok (users2, _, _, _) =>
          { users := users2,
            quests := st.quests.map (fun q2 =>
              if questMatch message_id q2
              then { q2 with completed_users := q2.completed_users ++ [user_id] }
              else q2) }

/-- Concrete state for C5's counterexample: member 1 already holds a ledger
row in guild 10, and quest 100 lives in guild 20 with nobody completed. -/
def crossGuildState : BotState :=
  { users := [⟨1, 10, 0, 1⟩],
    quests := [⟨100, 20, 5, "q", "c", []⟩] }

/-! Total-XP aggregator: `calculate_total_user_xp` (part_000 lines 187-250) -/

/-- A Discord role object as seen through `member.roles` / `guild.roles`. -/
structure Role where
  id : Int
  name : List Char
deriving DecidableEq

/-- A resolved member: the role objects the member holds. -/
structure Member where
  roles : List Role
deriving DecidableEq

/-- Whether `hay` starts with `pat`. -/
def startsWithChars : List Char → List Char → Bool
  | _, [] => true
  | [], _ :: _ => false
  | h :: hs, p :: ps => h == p && startsWithChars hs ps

/-- Python's substring test `pat in hay` on strings as char lists. -/
def containsSub : List Char → List Char → Bool
  | [], pat => pat.isEmpty
  | h :: t, pat => startsWithChars (h :: t) pat || containsSub t pat

/-- Python's `str.lower()` for the role names we model. -/
def toLowerName (cs : List Char) : List Char := cs.map Char.toLower

/-- Python's `int(s)` for the text after "Level ": we model the plain digits case.
(Python's int() additionally tolerates surrounding whitespace and a sign,
and `split("Level ")[1]` differs from dropping the first occurrence when
"Level " recurs inside the remainder; no "Level 1".."Level 10" tier-role
name exercises either, and a failed parse just skips the role.) -/
def digitsToNat? (cs : List Char) : Option Nat :=
  if cs.isEmpty then none
  else if cs.all Char.isDigit then
    some (cs.foldl (fun acc c => 10 * acc + (c.toNat - 48)) 0)
  else none

/-- The `"Level "` name prefix of tier roles. -/
def levelMarker : List Char := "Level ".toList

/-- One iteration of the `level_role_xp` loop: a role named `"Level n"` with
1 ≤ n ≤ 10 raises the running maximum to `LEVEL_THRESHOLDS[n]`; parse
failures `continue`. -/
def levelRoleStep (acc : Int) (r : Role) : Int :=
  if startsWithChars r.name levelMarker then
    match digitsToNat? (r.name.drop levelMarker.length) with
    | some n => if 1 ≤ n ∧ n ≤ 10 then max acc (LEVEL_THRESHOLDS n) else acc
    | none => acc
  else acc

def levelRoleXp (roles : List Role) : Int := roles.foldl levelRoleStep 0

/-- A community's `role_xp_assignments` dict: roleId ↦ XP. (The Python dict
keys are `str(role.id)`; distinct ids give distinct strings, so we key by
the id itself.) -/
abbrev RoleXpMap := List (Int × Int)

/-- One iteration of the `custom_role_xp` loop. -/
def customRoleStep (assignments : RoleXpMap) (acc : Int) (r : Role) : Int :=
  match assignments.find? (fun p => p.1 == r.id) with
  | some p => acc + p.2
  | none => acc

def customRoleXp (assignments : RoleXpMap) (roles : List Role) : Int :=
  roles.foldl (customRoleStep assignments) 0

def badgeChars : List Char := "badge".toList

def streakChars : List Char := "streak".toList

/-- One iteration of the `auto_role_xp` loop. Note the source's `elif`: a
role whose lowered name contains "badge" is never also tested for
"streak". -/
def autoRoleStep (acc : Int) (r : Role) : Int :=
  if containsSub (toLowerName r.name) badgeChars then acc + 5
  else if containsSub (toLowerName r.name) streakChars then acc + 5
  else acc

def autoRoleXp (roles : List Role) : Int := roles.foldl autoRoleStep 0

/-- Claim C7's asserted rule, written from the spec's words for comparison
with `autoRoleXp`: 5 × (count of roles whose name contains "badge") +
5 × (count of roles whose name contains "streak"), the two counts taken
independently. -/
def specAutoRoleXp (roles : List Role) : Int :=
  5 * (roles.countP (fun r => containsSub (toLowerName r.name) badgeChars) : Int)
  + 5 * (roles.countP (fun r => containsSub (toLowerName r.name) streakChars) : Int)

/-- A role whose name holds both substrings (C7's distinguishing input). -/
def badgeStreakRole : Role := ⟨1, "badge-streak".toList⟩

/-- The `calculate_total_user_xp` method. Here `resolved` mirrors the two platform lookups:
outer `none` is `bot.get_guild(guild_id)` failing, `some none` is
`guild.get_member(user_id)` failing; both fall back to the stored base xp
alone (re-read through `get_user_data`). A raised database error propagates:
the function's `except` fallback calls `get_user_data` again, which raises
the same error. -/
def calculate_total_user_xp (users : UsersTable) (assignments : RoleXpMap)
    (resolved : Option (Option Member)) (u g : Int) :
    Except DBError (UsersTable × Int) :=
  match resolved with
  | none => (get_user_data users u g).map (fun x => (x.1, x.2.1))
  | some none => (get_user_data users u g).map (fun x => (x.1, x.2.1))
  | some (some m) =>
    match get_user_data users u g with
    | .error e => .error e
    | .ok (t, base_xp, _) =>
      .ok (t, max base_xp
        (levelRoleXp m.roles + customRoleXp assignments m.roles + autoRoleXp m.roles))

/-! Settings store: the `settings` table and the in-memory fields -/

/-- A row of the `settings` table. -/
structure SettingsRow where
  guild_id : Int
  quest_ping_role_id : Option Int
  quest_channel_id : Option Int
  role_xp_assignments : RoleXpMap
deriving DecidableEq

/-- The `settings` table, in insertion order. -/
abbrev SettingsTable := List SettingsRow

/-- Key filter for integer-keyed association lists (Python dict lookups). -/
def fstMatch {β : Type} (g : Int) (p : Int × β) : Bool :=
  p.1 == g

/-- The row filter of `WHERE guild_id = ?` on the settings table. -/
def rowMatch (g : Int) (r : SettingsRow) : Bool :=
  r.guild_id == g

/-- The QuestBot instance's settings state: `quest_ping_role_id` and
`quest_channel_id` are single instance attributes shared across all guilds,
while `role_xp_assignments` is a dict keyed by guild id; `settingsTable` is
the durable store. -/
structure SettingsState where
  quest_ping_role_id : Option Int
  quest_channel_id : Option Int
  role_xp_assignments : List (Int × RoleXpMap)
  settingsTable : SettingsTable
deriving DecidableEq

/-- Python's `self.role_xp_assignments.get(guild_id, ...)` with the empty
dict as the default. -/
def assignmentsFor (st : SettingsState) (g : Int) : RoleXpMap :=
  ((st.role_xp_assignments.find? (fstMatch g)).map (fun p => p.2)).getD []

/-- The `save_settings(guild_id)` method: INSERT OR REPLACE the guild's row,
built from the current in-memory fields, as one whole-row write. -/
def save_settings (st : SettingsState) (g : Int) : SettingsState :=
  let row : SettingsRow :=
    ⟨g, st.quest_ping_role_id, st.quest_channel_id, assignmentsFor st g⟩
  { st with settingsTable :=
      if st.settingsTable.any (rowMatch g)
      then st.settingsTable.map (fun r => if rowMatch g r then row else r)
      else st.settingsTable ++ [row] }

/-- The questping command handlers: assign the shared instance attribute,
then save that guild's row. -/
def set_quest_ping (st : SettingsState) (g role_id : Int) : SettingsState :=
  save_settings { st with quest_ping_role_id := some role_id } g

/-- The questchannel command handlers, likewise. -/
def set_quest_channel (st : SettingsState) (g channel_id : Int) : SettingsState :=
  save_settings { st with quest_channel_id := some channel_id } g

/-- Python dict assignment `d[k] = v` on an association list. -/
def dictInsert (m : RoleXpMap) (k v : Int) : RoleXpMap :=
  if m.any (fstMatch k) then m.map (fun p => if fstMatch k p then (k, v) else p)
  else m ++ [(k, v)]

/-- The assignroleXP command handlers: ensure the guild's dict exists, set
the role's XP in it, then save that guild's row. -/
def assign_role_xp (st : SettingsState) (g rid amount : Int) : SettingsState :=
  let st2 := { st with role_xp_assignments :=
    if st.role_xp_assignments.any (fstMatch g)
    then st.role_xp_assignments.map (fun p =>
      if fstMatch g p then (g, dictInsert p.2 rid amount) else p)
    else st.role_xp_assignments ++ [(g, dictInsert [] rid amount)] }
  save_settings st2 g

/-- The stored settings row for a guild. -/
def storedSettingsFor (st : SettingsState) (g : Int) : Option SettingsRow :=
  st.settingsTable.find? (rowMatch g)

/-- The in-memory settings the bot consults when acting for guild `g`: the
two shared instance attributes plus the guild's dict entry. -/
def cachedSettingsFor (st : SettingsState) (g : Int) :
    Option Int × Option Int × RoleXpMap :=
  (st.quest_ping_role_id, st.quest_channel_id, assignmentsFor st g)

/-- Concrete state for C8's counterexample: guild 2's settings (quest ping
role 77) are the ones loaded in memory, and guild 2's durable row agrees. -/
def twoGuildSettings : SettingsState :=
  { quest_ping_role_id := some 77,
    quest_channel_id := none,
    role_xp_assignments := [],
    settingsTable := [⟨2, some 77, none, []⟩] }

/-! Role reconciliation engine (part_000 lines 124-178) -/

/-- Per-guild platform state: the community's role set and each member's
held role ids. -/
structure GuildState where
  roles : List Role
  member_roles : List (Int × List Int)
deriving DecidableEq

/-- The platform as the bot sees it: guild states keyed by guild id. -/
abbrev PlatformState := List (Int × GuildState)

/-- Role filter of `discord.utils.get(guild.roles, name=...)`. -/
def roleNameMatch (nm : List Char) (r : Role) : Bool :=
  r.name == nm

/-- Which platform calls raise (`discord.Forbidden`, a network error, ...)
during one reconciliation run. A failing call raises where it is issued and
changes nothing; the try/except blocks of the source decide how far the run
proceeds afterwards. -/
structure FailPattern where
  removeFails : Bool
  addFails : Bool
  createFails : Bool
deriving DecidableEq

/-- Python's `bot.get_guild(guild_id)`. -/
def lookupGuild (ps : PlatformState) (gid : Int) : Option GuildState :=
  (ps.find? (fstMatch gid)).map (fun p => p.2)

/-- Commit a changed guild state back into the platform. -/
def setGuild (ps : PlatformState) (gid : Int) (gs : GuildState) : PlatformState :=
  ps.map (fun p => if fstMatch gid p then (gid, gs) else p)

/-- Python's `guild.get_member(user_id)`, as the member's held role ids. -/
def lookupMember (gs : GuildState) (uid : Int) : Option (List Int) :=
  (gs.member_roles.find? (fstMatch uid)).map (fun p => p.2)

/-- Python's `member.add_roles(role)`. -/
def addMemberRole (gs : GuildState) (uid rid : Int) : GuildState :=
  { gs with member_roles := gs.member_roles.map (fun p =>
      if fstMatch uid p then (uid, p.2 ++ [rid]) else p) }

/-- Python's `member.remove_roles(role)`. -/
def removeMemberRole (gs : GuildState) (uid rid : Int) : GuildState :=
  { gs with member_roles := gs.member_roles.map (fun p =>
      if fstMatch uid p then (uid, p.2.filter (fun r => !(r == rid))) else p) }

/-- The platform-assigned id of an auto-created tier role; reconciliation
identifies tier roles purely by name, so we model the fresh snowflake as a
fixed function of the tier. -/
def createdRoleId (n : Nat) : Int := Int.ofNat (1000000 + n)

/-- The tier-role name the code formats for level n. -/
def levelRoleName (n : Nat) : List Char := levelMarker ++ (Nat.repr n).toList

/-- The `create_level_roles` method: for each level 1..10, create the
"Level n" role if absent. Its own try/except catches a Forbidden raised by
the first attempted creation, aborting the loop with nothing created. -/
def create_level_roles (gs : GuildState) (f : FailPattern) : GuildState :=
  if f.createFails then gs
  else (List.range 10).foldl (fun acc i =>
    if acc.roles.any (roleNameMatch (levelRoleName (i + 1))) then acc
    else { acc with roles := acc.roles ++ [⟨createdRoleId (i + 1), levelRoleName (i + 1)⟩] }) gs

/-- The add-new-role half of `update_user_level_role`: grant the "Level new"
role if it exists; otherwise create the tier roles, re-look the role up and
grant it if it now exists. A raising `add_roles` is caught by the caller's
outer except, after the earlier steps' committed effects stand. -/
def reconcileAdd (ps : PlatformState) (f : FailPattern) (gid uid : Int)
    (new_level : Nat) (gs : GuildState) : PlatformState :=
  match gs.roles.find? (roleNameMatch (levelRoleName new_level)) with
  | some nr =>
    if f.addFails then ps
    else setGuild ps gid (addMemberRole gs uid nr.id)
  | none =>
    let gs2 := create_level_roles gs f
    let ps2 := setGuild ps gid gs2
    match gs2.roles.find? (roleNameMatch (levelRoleName new_level)) with
    | some nr =>
      if f.addFails then ps2
      else setGuild ps2 gid (addMemberRole gs2 uid nr.id)
    | none => ps2

/-- The `update_user_level_role` coroutine: resolve guild and member
(silently aborting if either is gone), drop the held "Level old" role, then
grant the "Level new" role. Every platform failure is caught by the body's
try/except (a raising `remove_roles` aborts the remaining steps but still
returns normally), so the coroutine always returns a platform state — and
the database is not among its inputs or outputs. -/
def update_user_level_role (ps : PlatformState) (f : FailPattern)
    (task : ReconcileTask) : PlatformState :=
  match lookupGuild ps task.guild_id with
  | none => ps
  | some gs =>
    match lookupMember gs task.user_id with
    | none => ps
    | some held =>
      match gs.roles.find? (roleNameMatch (levelRoleName task.old_level)) with
      | some old_role =>
        if old_role.id ∈ held then
          if f.removeFails then ps
          else
            let gs1 := removeMemberRole gs task.user_id old_role.id
            reconcileAdd (setGuild ps task.guild_id gs1) f task.guild_id
              task.user_id task.new_level gs1
        else reconcileAdd ps f task.guild_id task.user_id task.new_level gs
      | none => reconcileAdd ps f task.guild_id task.user_id task.new_level gs

/-- Run the tasks an adjust spawned (each a detached `asyncio.create_task`). -/
def runTasks (ps : PlatformState) (f : FailPattern)
    (tasks : List ReconcileTask) : PlatformState :=
  tasks.foldl (fun p task => update_user_level_role p f task) ps

/-- An adjust followed by the detached reconcile tasks it scheduled; the
tasks run on the event loop only after the synchronous `update_user_xp` has
committed the row and returned its result. -/
def adjust_then_reconcile (t : UsersTable) (ps : PlatformState) (f : FailPattern)
    (u g δ : Int) : Except DBError (UsersTable × Int × Nat × PlatformState) :=
  match update_user_xp t u g δ with
  | .error e => .error e
  | .ok (t2, nxp, nlvl, tasks) => .ok (t2, nxp, nlvl, runTasks ps f tasks)

theorem thr_one : LEVEL_THRESHOLDS 1 = 0 := rfl

theorem thr_two : LEVEL_THRESHOLDS 2 = 100 := rfl

theorem thr_three : LEVEL_THRESHOLDS 3 = 500 := rfl

theorem thr_four : LEVEL_THRESHOLDS 4 = 1200 := rfl

theorem thr_five : LEVEL_THRESHOLDS 5 = 2200 := rfl

theorem thr_six : LEVEL_THRESHOLDS 6 = 3500 := rfl

theorem thr_seven : LEVEL_THRESHOLDS 7 = 5100 := rfl

theorem thr_eight : LEVEL_THRESHOLDS 8 = 7000 := rfl

theorem thr_nine : LEVEL_THRESHOLDS 9 = 9200 := rfl

theorem thr_ten : LEVEL_THRESHOLDS 10 = 11700 := rfl

/-- Unfolding of `calculate_level` with the threshold lookups reduced to their numerals. -/
theorem calculate_level_ite (xp : Int) :
    calculate_level xp =
      if (11700 : Int) ≤ xp then 10
      else if (9200 : Int) ≤ xp then 9
      else if (7000 : Int) ≤ xp then 8
      else if (5100 : Int) ≤ xp then 7
      else if (3500 : Int) ≤ xp then 6
      else if (2200 : Int) ≤ xp then 5
      else if (1200 : Int) ≤ xp then 4
      else if (500 : Int) ≤ xp then 3
      else if (100 : Int) ≤ xp then 2
      else if (0 : Int) ≤ xp then 1
      else 1 := rfl

theorem calculate_level_bounds (xp : Int) :
    1 ≤ calculate_level xp ∧ calculate_level xp ≤ 10 := by
  rw [calculate_level_ite]
  split_ifs <;> omega

theorem calculate_level_thr_le (xp : Int) (hxp : 0 ≤ xp) :
    LEVEL_THRESHOLDS (calculate_level xp) ≤ xp := by
  rw [calculate_level_ite]
  split_ifs <;>
    simp only [thr_one, thr_two, thr_three, thr_four, thr_five, thr_six,
      thr_seven, thr_eight, thr_nine, thr_ten] <;> omega

set_option maxHeartbeats 1600000 in
theorem calculate_level_greatest (xp : Int) (l : Nat) (hl1 : 1 ≤ l) (hl10 : l ≤ 10)
    (hthr : LEVEL_THRESHOLDS l ≤ xp) : l ≤ calculate_level xp := by
  rw [calculate_level_ite]
  interval_cases l <;>
    · simp only [thr_one, thr_two, thr_three, thr_four, thr_five, thr_six,
        thr_seven, thr_eight, thr_nine, thr_ten] at hthr
      split_ifs <;> omega

theorem calculate_level_neg (xp : Int) (hxp : xp < 0) : calculate_level xp = 1 := by
  rw [calculate_level_ite]
  split_ifs <;> omega

theorem calculate_level_mono (a b : Int) (hab : a ≤ b) :
    calculate_level a ≤ calculate_level b := by
  rcases le_or_lt 0 a with ha | ha
  · exact calculate_level_greatest b (calculate_level a)
      (calculate_level_bounds a).1 (calculate_level_bounds a).2
      (le_trans (calculate_level_thr_le a ha) hab)
  · rw [calculate_level_neg a ha]
    exact (calculate_level_bounds b).1

theorem calculate_level_at_thr (n : Nat) (hn1 : 1 ≤ n) (hn10 : n ≤ 10) :
    calculate_level (LEVEL_THRESHOLDS n) = n := by
  interval_cases n <;> decide

/-- C4: for every non-negative xp, `calculate_level xp` is the greatest level
in [1,10] whose threshold is ≤ xp; `calculate_level` is monotone
non-decreasing; and `calculate_level (LEVEL_THRESHOLDS n) = n` for every tier
n in 1..10. -/
theorem C4_level_table :
    (∀ xp : Int, 0 ≤ xp →
      1 ≤ calculate_level xp ∧ calculate_level xp ≤ 10 ∧
      LEVEL_THRESHOLDS (calculate_level xp) ≤ xp ∧
      ∀ l : Nat, 1 ≤ l → l ≤ 10 → LEVEL_THRESHOLDS l ≤ xp → l ≤ calculate_level xp)
    ∧ (∀ a b : Int, a ≤ b → calculate_level a ≤ calculate_level b)
    ∧ (∀ n : Nat, 1 ≤ n → n ≤ 10 → calculate_level (LEVEL_THRESHOLDS n) = n) := by
  refine ⟨fun xp hxp => ⟨(calculate_level_bounds xp).1, (calculate_level_bounds xp).2,
      calculate_level_thr_le xp hxp,
      fun l hl1 hl10 hthr => calculate_level_greatest xp l hl1 hl10 hthr⟩,
    calculate_level_mono, calculate_level_at_thr⟩

/-- Witness for C4 at xp = 150: level 2 is the greatest qualifying tier. -/
theorem C4_level_table_witness :
    0 ≤ (150 : Int) ∧
      (1 ≤ calculate_level 150 ∧ calculate_level 150 ≤ 10 ∧
       LEVEL_THRESHOLDS (calculate_level 150) ≤ 150 ∧
       ∀ l : Nat, 1 ≤ l → l ≤ 10 → LEVEL_THRESHOLDS l ≤ 150 → l ≤ calculate_level 150) :=
  ⟨by decide, C4_level_table.1 150 (by decide)⟩

theorem keyMatch_self (u g : Int) (xp : Int) (lvl : Nat) :
    keyMatch u g ⟨u, g, xp, lvl⟩ = true := by
  simp [keyMatch]

theorem keyMatch_fields {u g : Int} {r : UserRow} (h : keyMatch u g r = true) :
    r.user_id = u ∧ r.guild_id = g := by
  simpa [keyMatch] using h

theorem keyMatch_update {u g : Int} {r : UserRow} (x : Int) (l : Nat)
    (h : keyMatch u g r = true) : keyMatch u g { r with xp := x, level := l } = true := by
  simp [keyMatch] at h ⊢
  exact h

theorem find?_updateRow_self (t : UsersTable) (u g : Int) (xp : Int) (lvl : Nat)
    (r : UserRow) (h : t.find? (keyMatch u g) = some r) :
    (updateRow t u g xp lvl).find? (keyMatch u g) =
      some { r with xp := xp, level := lvl } := by
  induction t with
  | nil => simp at h
  | cons a t ih =>
    by_cases ha : keyMatch u g a = true
    · rw [List.find?_cons_of_pos _ ha] at h
      injection h with h
      simp only [updateRow, List.map_cons, if_pos ha]
      rw [h]
      exact List.find?_cons_of_pos _ (keyMatch_update xp lvl (h ▸ ha))
    · rw [List.find?_cons_of_neg _ ha] at h
      simp only [updateRow, List.map_cons, if_neg ha]
      rw [List.find?_cons_of_neg _ ha]
      exact ih h

theorem get_spec (t : UsersTable) (u g : Int) (t2 : UsersTable) (xp : Int) (lvl : Nat)
    (h : get_user_data t u g = .ok (t2, xp, lvl)) :
    t2.find? (keyMatch u g) = some ⟨u, g, xp, lvl⟩
    ∧ (xp, lvl) = effectiveData t u g
    ∧ (∀ u' g', effectiveData t2 u' g' = effectiveData t u' g')
    ∧ (levelInvariant t → levelInvariant t2) := by
  unfold get_user_data at h
  cases hf : t.find? (keyMatch u g) with
  | some r =>
    rw [hf] at h
    simp only [Except.ok.injEq, Prod.mk.injEq] at h
    obtain ⟨rfl, rfl, rfl⟩ := h
    have hkm : keyMatch u g r = true := List.find?_some hf
    obtain ⟨hu, hg⟩ := keyMatch_fields hkm
    refine ⟨?_, ?_, fun u' g' => rfl, fun hi => hi⟩
    · rw [hf]
      cases r
      simp_all
    · rw [effectiveData, hf]
      rfl
  | none =>
    rw [hf] at h
    unfold insertUser at h
    by_cases hany : t.any (fun r => r.user_id == u) = true
    · rw [if_pos hany] at h
      simp [Except.map] at h
    · rw [if_neg hany] at h
      simp only [Except.map, Except.ok.injEq, Prod.mk.injEq] at h
      obtain ⟨rfl, rfl, rfl⟩ := h
      refine ⟨?_, ?_, ?_, ?_⟩
      · rw [List.find?_append, hf, Option.none_or]
        exact List.find?_cons_of_pos _ (keyMatch_self u g 0 1)
      · rw [effectiveData, hf]
        rfl
      · intro u' g'
        unfold effectiveData
        rw [List.find?_append]
        cases hf' : t.find? (keyMatch u' g') with
        | some r' => rw [Option.or_some]
        | none =>
          rw [Option.none_or]
          by_cases hk : keyMatch u' g' ⟨u, g, 0, 1⟩ = true
          · rw [List.find?_cons_of_pos _ hk]
            rfl
          · rw [List.find?_cons_of_neg _ hk, List.find?_nil]
      · intro hi r hr
        rcases List.mem_append.mp hr with h1 | h2
        · exact hi r h1
        · rw [List.mem_singleton.mp h2]
          show (1 : Nat) = calculate_level 0
          decide

theorem update_spec (t : UsersTable) (u g δ : Int) (t2 : UsersTable) (nxp : Int)
    (nlvl : Nat) (tasks : List ReconcileTask)
    (h : update_user_xp t u g δ = .ok (t2, nxp, nlvl, tasks)) :
    nxp = max 0 ((effectiveData t u g).1 + δ)
    ∧ nlvl = calculate_level nxp
    ∧ effectiveData t2 u g = (nxp, nlvl)
    ∧ tasks = (if (effectiveData t u g).2 ≠ nlvl
               then [⟨u, g, (effectiveData t u g).2, nlvl⟩] else [])
    ∧ (levelInvariant t → levelInvariant t2) := by
  unfold update_user_xp at h
  cases hg : get_user_data t u g with
  | error e => rw [hg] at h; simp at h
  | ok res =>
    obtain ⟨t1, cur_xp, old_level⟩ := res
    obtain ⟨hfind1, heff, hframe, hinv⟩ := get_spec t u g t1 cur_xp old_level hg
    rw [hg] at h
    simp only [Except.ok.injEq, Prod.mk.injEq] at h
    obtain ⟨rfl, rfl, rfl, rfl⟩ := h
    have hcur : cur_xp = (effectiveData t u g).1 := by rw [← heff]
    have hold : old_level = (effectiveData t u g).2 := by rw [← heff]
    refine ⟨by rw [hcur], rfl, ?_, by rw [hold], ?_⟩
    · rw [effectiveData,
        find?_updateRow_self t1 u g _ _ _ hfind1]
      rfl
    · intro hi
      have hi1 := hinv hi
      intro r hr
      obtain ⟨r0, hr0, hfr⟩ := List.mem_map.mp hr
      by_cases hk : keyMatch u g r0 = true
      · rw [if_pos hk] at hfr
        rw [← hfr]
      · rw [if_neg hk] at hfr
        rw [← hfr]
        exact hi1 r0 hr0

/-- C2: a single adjust stores and returns `max 0 (oldXp + delta)` with the
level recomputed from it; in particular xp=50, delta=-1000 clamps to xp=0,
level 1. -/
theorem C2_adjust_contract :
    (∀ (t : UsersTable) (u g δ : Int) (r : UserRow),
      t.find? (keyMatch u g) = some r →
      ∃ t2 tasks,
        update_user_xp t u g δ
          = .ok (t2, max 0 (r.xp + δ), calculate_level (max 0 (r.xp + δ)), tasks)
        ∧ effectiveData t2 u g
            = (max 0 (r.xp + δ), calculate_level (max 0 (r.xp + δ))))
    ∧ update_user_xp [⟨1, 1, 50, 1⟩] 1 1 (-1000) = .ok ([⟨1, 1, 0, 1⟩], 0, 1, []) := by
  constructor
  · intro t u g δ r hfind
    have hget : get_user_data t u g = .ok (t, r.xp, r.level) := by
      unfold get_user_data
      rw [hfind]
    refine ⟨updateRow t u g (max 0 (r.xp + δ)) (calculate_level (max 0 (r.xp + δ))),
      (if r.level ≠ calculate_level (max 0 (r.xp + δ))
       then [⟨u, g, r.level, calculate_level (max 0 (r.xp + δ))⟩] else []), ?_, ?_⟩
    · unfold update_user_xp
      rw [hget]
    · rw [effectiveData, find?_updateRow_self t u g _ _ _ hfind]
      rfl
  · rfl

/-- Witness for C2 at a concrete one-row table. -/
theorem C2_adjust_contract_witness :
    ([⟨2, 3, 50, 1⟩] : UsersTable).find? (keyMatch 2 3) = some ⟨2, 3, 50, 1⟩
    ∧ ∃ t2 tasks,
        update_user_xp [⟨2, 3, 50, 1⟩] 2 3 (-1000)
          = .ok (t2, max 0 (50 + -1000), calculate_level (max 0 (50 + -1000)), tasks)
        ∧ effectiveData t2 2 3
            = (max 0 (50 + -1000), calculate_level (max 0 (50 + -1000))) :=
  ⟨by rfl, C2_adjust_contract.1 [⟨2, 3, 50, 1⟩] 2 3 (-1000) ⟨2, 3, 50, 1⟩ (by rfl)⟩

/-- C3: every stored row keeps `level == calculate_level xp`: records are
created with (0, 1), `calculate_level 0 = 1`, and both table operations
preserve the invariant, with the mutator recomputing the level. -/
theorem C3_level_invariant :
    calculate_level 0 = 1
    ∧ (∀ (t : UsersTable) (u g : Int) (t2 : UsersTable) (xp : Int) (lvl : Nat),
        get_user_data t u g = .ok (t2, xp, lvl) →
        (t.find? (keyMatch u g) = none →
          (xp, lvl) = (0, 1) ∧ t2.find? (keyMatch u g) = some ⟨u, g, 0, 1⟩)
        ∧ (levelInvariant t → levelInvariant t2 ∧ lvl = calculate_level xp))
    ∧ (∀ (t : UsersTable) (u g δ : Int) (t2 : UsersTable) (nxp : Int) (nlvl : Nat)
        (tasks : List ReconcileTask),
        update_user_xp t u g δ = .ok (t2, nxp, nlvl, tasks) →
        levelInvariant t → levelInvariant t2 ∧ nlvl = calculate_level nxp) := by
  refine ⟨by decide, ?_, ?_⟩
  · intro t u g t2 xp lvl h
    obtain ⟨hfind2, heff, _, hinv⟩ := get_spec t u g t2 xp lvl h
    constructor
    · intro hnone
      have : effectiveData t u g = (0, 1) := by
        rw [effectiveData, hnone]
        rfl
      rw [this] at heff
      obtain ⟨rfl, rfl⟩ := Prod.mk.injEq .. ▸ heff
      exact ⟨rfl, hfind2⟩
    · intro hi
      refine ⟨hinv hi, ?_⟩
      cases hf : t.find? (keyMatch u g) with
      | some r =>
        have : effectiveData t u g = (r.xp, r.level) := by
          rw [effectiveData, hf]
          rfl
        rw [this] at heff
        have h1 : xp = r.xp := congrArg Prod.fst heff
        have h2 : lvl = r.level := congrArg Prod.snd heff
        rw [h1, h2]
        exact hi r (List.mem_of_find?_eq_some hf)
      | none =>
        have : effectiveData t u g = (0, 1) := by
          rw [effectiveData, hf]
          rfl
        rw [this] at heff
        have h1 : xp = 0 := congrArg Prod.fst heff
        have h2 : lvl = 1 := congrArg Prod.snd heff
        rw [h1, h2]
        decide
  · intro t u g δ t2 nxp nlvl tasks h hi
    obtain ⟨_, hlvl, _, _, hinv⟩ := update_spec t u g δ t2 nxp nlvl tasks h
    exact ⟨hinv hi, hlvl⟩

/-- Witness for C3: the spec scenario adjust(+120) from a fresh record. -/
theorem C3_level_invariant_witness :
    update_user_xp [⟨1, 2, 0, 1⟩] 1 2 120 = .ok ([⟨1, 2, 120, 2⟩], 120, 2, [⟨1, 2, 1, 2⟩])
    ∧ (levelInvariant [⟨1, 2, 120, 2⟩] ∧ (2 : Nat) = calculate_level 120) :=
  ⟨by rfl,
    C3_level_invariant.2.2 [⟨1, 2, 0, 1⟩] 1 2 120 [⟨1, 2, 120, 2⟩] 120 2 [⟨1, 2, 1, 2⟩]
      (by rfl) (by unfold levelInvariant; decide)⟩

/-- C9: records are NOT keyed by the (memberId, communityId) pair: `user_id`
alone is the table's PRIMARY KEY, so creating a record for a member who
already has one in another community raises IntegrityError instead of
creating an independent zeroed record. -/
theorem C9_primary_key_defect :
    get_user_data [⟨1, 10, 0, 1⟩] 1 20 = .error .primaryKeyConflict := by rfl

theorem atomicSchedule_cons (i : Nat) (rest : List Nat) :
    atomicSchedule (i :: rest) = i :: i :: atomicSchedule rest := rfl

theorem runSched_cons (s : Int) (ths : Nat → AdjThread) (i : Nat) (l : List Nat) :
    runSched s ths (i :: l)
      = runSched (threadStep s (ths i)).1
          (Function.update ths i (threadStep s (ths i)).2) l := rfl

theorem foldl_eq_on {α β : Type} (f g : β → α → β) (l : List α) (b : β)
    (h : ∀ a ∈ l, ∀ x, f x a = g x a) : l.foldl f b = l.foldl g b := by
  induction l generalizing b with
  | nil => rfl
  | cons a t ih =>
    rw [List.foldl_cons, List.foldl_cons, h a (List.mem_cons_self a t)]
    exact ih _ (fun a' ha' x => h a' (List.mem_cons_of_mem a ha') x)

theorem map_getD_range {α : Type} (d : α) : ∀ l : List α,
    (List.range l.length).map (fun i => l.getD i d) = l
  | [] => rfl
  | a :: t => by
    rw [List.length_cons, List.range_succ_eq_map, List.map_cons, List.map_map]
    refine congrArg (List.cons a) ?_
    rw [show ((fun i => (a :: t).getD i d) ∘ Nat.succ) = (fun i => t.getD i d) from
      funext (fun i => rfl)]
    exact map_getD_range d t

theorem runSched_atomic : ∀ (order : List Nat) (x0 : Int) (ths : Nat → AdjThread),
    (∀ i ∈ order, (ths i).pc = 0) → order.Nodup →
    runSched x0 ths (atomicSchedule order)
      = order.foldl (fun s i => applyDelta s (ths i).delta) x0 := by
  intro order
  induction order with
  | nil => intro x0 ths _ _; rfl
  | cons i rest ih =>
    intro x0 ths h hnd
    have hpc : (ths i).pc = 0 := h i (List.mem_cons_self i rest)
    have hni : i ∉ rest := (List.nodup_cons.mp hnd).1
    have hnd' : rest.Nodup := (List.nodup_cons.mp hnd).2
    have hs1 : threadStep x0 (ths i) = (x0, ⟨(ths i).delta, 1, x0⟩) := by
      unfold threadStep
      rw [hpc]
    have hs2 : threadStep x0 (⟨(ths i).delta, 1, x0⟩ : AdjThread)
        = (applyDelta x0 (ths i).delta, ⟨(ths i).delta, 2, x0⟩) := rfl
    rw [atomicSchedule_cons, runSched_cons, hs1]
    dsimp only
    rw [runSched_cons, Function.update_same, hs2]
    dsimp only
    rw [Function.update_idem]
    have hpcs : ∀ j ∈ rest,
        ((Function.update ths i (⟨(ths i).delta, 2, x0⟩ : AdjThread)) j).pc = 0 := by
      intro j hj
      rw [Function.update_noteq (ne_of_mem_of_not_mem hj hni)]
      exact h j (List.mem_cons_of_mem i hj)
    rw [ih (applyDelta x0 (ths i).delta) _ hpcs hnd', List.foldl_cons]
    exact foldl_eq_on _ _ rest _ (fun j hj x => by
      rw [Function.update_noteq (ne_of_mem_of_not_mem hj hni)])

/-- C1: for every family of concurrently issued adjust calls with deltas `ds`
against one (memberId, communityId) row holding `x0`, and every schedule the
event loop can realize (the handlers serviced in an arbitrary order, each
read-modify-write uninterrupted because `update_user_xp` holds no await),
the final stored xp folds every delta, clamped at 0, in service order — no
delta is lost. -/
theorem C1_no_lost_updates (ds : List Int) (x0 : Int) (order : List Nat)
    (hperm : order.Perm (List.range ds.length)) :
    runSched x0 (fun i => initThread (ds.getD i 0)) (atomicSchedule order)
      = (order.map (fun i => ds.getD i 0)).foldl applyDelta x0
    ∧ (order.map (fun i => ds.getD i 0)).Perm ds := by
  have hnd : order.Nodup := hperm.nodup_iff.mpr (List.nodup_range _)
  constructor
  · rw [runSched_atomic order x0 _ (fun i _ => rfl) hnd, List.foldl_map]
    rfl
  · have hp := hperm.map (fun i => ds.getD i 0)
    rw [map_getD_range 0 ds] at hp
    exact hp

/-- Witness for C1: two racing adjusts (+50 and -1000) serviced in the order
second-then-first from xp 0. -/
theorem C1_no_lost_updates_witness :
    ([1, 0] : List Nat).Perm (List.range ([50, -1000] : List Int).length)
    ∧ (runSched 0 (fun i => initThread (([50, -1000] : List Int).getD i 0))
          (atomicSchedule [1, 0])
        = (([1, 0] : List Nat).map (fun i => ([50, -1000] : List Int).getD i 0)).foldl
            applyDelta 0
      ∧ (([1, 0] : List Nat).map (fun i => ([50, -1000] : List Int).getD i 0)).Perm
          ([50, -1000] : List Int)) :=
  ⟨by decide, C1_no_lost_updates [50, -1000] 0 [1, 0] (by decide)⟩

theorem on_reaction_add_eq (st : BotState) (mid uid gid : Int) :
    on_reaction_add st mid uid gid false true
      = match st.quests.find? (questMatch mid) with
        | none => st
        | some q =>
          if uid ∈ q.completed_users then st
          else match update_user_xp st.users uid gid 50 with
            | .error _ => st
            | .ok (users2, _, _, _) =>
              { users := users2,
                quests := st.quests.map (fun q2 =>
                  if questMatch mid q2
                  then { q2 with completed_users := q2.completed_users ++ [uid] }
                  else q2) } := rfl

theorem find?_questUpdate_self (t : QuestsTable) (mid : Int) (uid : Int)
    (q : QuestRow) (h : t.find? (questMatch mid) = some q) :
    (t.map (fun q2 => if questMatch mid q2
        then { q2 with completed_users := q2.completed_users ++ [uid] } else q2)).find?
      (questMatch mid)
      = some { q with completed_users := q.completed_users ++ [uid] } := by
  induction t with
  | nil => simp at h
  | cons a t ih =>
    by_cases ha : questMatch mid a = true
    · rw [List.find?_cons_of_pos _ ha] at h
      injection h with h
      simp only [List.map_cons, if_pos ha]
      rw [h]
      exact List.find?_cons_of_pos _ (h ▸ ha)
    · rw [List.find?_cons_of_neg _ ha] at h
      simp only [List.map_cons, if_neg ha]
      rw [List.find?_cons_of_neg _ ha]
      exact ih h

/-- C5 (amended): provided the 50-XP ledger adjust itself succeeds (it fails
only through the C9 primary-key defect, when the member's row for this
community is missing but another community holds one), a first completion
signal awards exactly 50 XP and inserts the member into `completed_users`; a
second identical signal returns the state exactly unchanged; a signal for an
unknown quest id changes nothing — so two signals in sequence award once. -/
theorem C5_award_idempotent
    (st : BotState) (mid uid gid : Int) (q : QuestRow)
    (hq : st.quests.find? (questMatch mid) = some q)
    (hnew : uid ∉ q.completed_users)
    (t2 : UsersTable) (nxp : Int) (nlvl : Nat) (tasks : List ReconcileTask)
    (hupd : update_user_xp st.users uid gid 50 = .ok (t2, nxp, nlvl, tasks))
    (hbase : 0 ≤ (effectiveData st.users uid gid).1) :
    effectiveData (on_reaction_add st mid uid gid false true).users uid gid
        = ((effectiveData st.users uid gid).1 + 50,
           calculate_level ((effectiveData st.users uid gid).1 + 50))
    ∧ (on_reaction_add st mid uid gid false true).quests.find? (questMatch mid)
        = some { q with completed_users := q.completed_users ++ [uid] }
    ∧ on_reaction_add (on_reaction_add st mid uid gid false true) mid uid gid false true
        = on_reaction_add st mid uid gid false true
    ∧ (∀ st' mid', st'.quests.find? (questMatch mid') = none →
        on_reaction_add st' mid' uid gid false true = st') := by
  obtain ⟨hnxp, hnlvl, heff2, _, _⟩ :=
    update_spec st.users uid gid 50 t2 nxp nlvl tasks hupd
  have hx : nxp = (effectiveData st.users uid gid).1 + 50 := by
    rw [hnxp]
    omega
  have hst1 : on_reaction_add st mid uid gid false true
      = { users := t2,
          quests := st.quests.map (fun q2 =>
            if questMatch mid q2
            then { q2 with completed_users := q2.completed_users ++ [uid] }
            else q2) } := by
    rw [on_reaction_add_eq, hq]
    dsimp only
    rw [if_neg hnew, hupd]
  refine ⟨?_, ?_, ?_, ?_⟩
  · rw [hst1]
    show effectiveData t2 uid gid = _
    rw [heff2, hx, hnlvl, hx]
  · rw [hst1]
    exact find?_questUpdate_self st.quests mid uid q hq
  · rw [on_reaction_add_eq (on_reaction_add st mid uid gid false true)]
    have hfind1 : (on_reaction_add st mid uid gid false true).quests.find? (questMatch mid)
        = some { q with completed_users := q.completed_users ++ [uid] } := by
      rw [hst1]
      exact find?_questUpdate_self st.quests mid uid q hq
    rw [hfind1]
    dsimp only
    have hmem : uid ∈ q.completed_users ++ [uid] :=
      List.mem_append.mpr (Or.inr (List.mem_singleton.mpr rfl))
    rw [if_pos hmem]
  · intro st' mid' hnone
    rw [on_reaction_add_eq, hnone]

/-- Witness for C5's amended theorem: a fresh member completes quest 100 in
guild 20, is awarded 50 XP, and a repeat reaction is a no-op. -/
theorem C5_award_idempotent_witness :
    0 ≤ (effectiveData ([] : UsersTable) 1 20).1
    ∧ (effectiveData
          (on_reaction_add ⟨[], [⟨100, 20, 5, "q", "c", []⟩]⟩ 100 1 20 false true).users 1 20
        = ((effectiveData ([] : UsersTable) 1 20).1 + 50,
           calculate_level ((effectiveData ([] : UsersTable) 1 20).1 + 50))
      ∧ (on_reaction_add ⟨[], [⟨100, 20, 5, "q", "c", []⟩]⟩ 100 1 20 false true).quests.find?
            (questMatch 100)
          = some ⟨100, 20, 5, "q", "c", [] ++ [1]⟩
      ∧ on_reaction_add
            (on_reaction_add ⟨[], [⟨100, 20, 5, "q", "c", []⟩]⟩ 100 1 20 false true)
            100 1 20 false true
          = on_reaction_add ⟨[], [⟨100, 20, 5, "q", "c", []⟩]⟩ 100 1 20 false true
      ∧ (∀ (st' : BotState) (mid' : Int),
          st'.quests.find? (questMatch mid') = none →
          on_reaction_add st' mid' 1 20 false true = st')) :=
  ⟨by decide,
   C5_award_idempotent ⟨[], [⟨100, 20, 5, "q", "c", []⟩]⟩ 100 1 20 ⟨100, 20, 5, "q", "c", []⟩
     (by rfl) (by decide) [⟨1, 20, 50, 1⟩] 50 1 [] (by rfl) (by decide)⟩

/-- C5, as frozen, is false: member 1 holds a ledger row only in guild 10, so
the 50-XP award for quest 100 in guild 20 hits the C9 primary-key conflict;
the handler aborts and the signal neither awards 50 XP nor inserts member 1
into `completed_users`, although member 1 was not in the completion set. -/
theorem C5_counterexample :
    on_reaction_add crossGuildState 100 1 20 false true = crossGuildState
    ∧ effectiveData crossGuildState.users 1 20 = (0, 1)
    ∧ crossGuildState.quests.find? (questMatch 100)
        = some ⟨100, 20, 5, "q", "c", []⟩ :=
  ⟨rfl, rfl, rfl⟩

theorem autoRoleXp_foldl (roles : List Role) : ∀ acc : Int,
    roles.foldl autoRoleStep acc
      = acc + 5 * (roles.countP (fun r => containsSub (toLowerName r.name) badgeChars) : Int)
          + 5 * (roles.countP (fun r => !containsSub (toLowerName r.name) badgeChars
              && containsSub (toLowerName r.name) streakChars) : Int) := by
  induction roles with
  | nil =>
    intro acc
    simp
  | cons r t ih =>
    intro acc
    rw [List.foldl_cons, ih, List.countP_cons, List.countP_cons]
    by_cases hb : containsSub (toLowerName r.name) badgeChars = true
    · simp only [autoRoleStep, hb, if_true, Bool.not_true, Bool.false_and]
      push_cast [hb]
      ring
    · by_cases hs : containsSub (toLowerName r.name) streakChars = true
      · simp only [autoRoleStep, hb, if_false, hs, if_true, Bool.not_false, Bool.true_and]
        push_cast [hb, hs]
        ring
      · simp only [autoRoleStep, hb, if_false, hs, Bool.not_false, Bool.true_and]
        push_cast [hb, hs]
        ring

/-- C6: for a member resolved on the live platform, `calculate_total_user_xp`
returns `max(baseXp, levelRoleXp + customRoleXp + autoRoleXp)`; when the
guild or member cannot be resolved it returns baseXp alone; its result is
never below the stored baseXp; and it writes no xp/level value back (the
only table change `get_user_data` can make is materialising the default
(0, 1) row it reports). -/
theorem C6_total_xp :
    (∀ (users : UsersTable) (assignments : RoleXpMap) (m : Member) (u g : Int)
        (t : UsersTable) (base : Int) (lvl : Nat),
      get_user_data users u g = .ok (t, base, lvl) →
      calculate_total_user_xp users assignments (some (some m)) u g
        = .ok (t, max base (levelRoleXp m.roles + customRoleXp assignments m.roles
            + autoRoleXp m.roles)))
    ∧ (∀ (users : UsersTable) (assignments : RoleXpMap)
        (resolved : Option (Option Member)) (u g : Int)
        (t : UsersTable) (base : Int) (lvl : Nat),
      get_user_data users u g = .ok (t, base, lvl) →
      resolved = none ∨ resolved = some none →
      calculate_total_user_xp users assignments resolved u g = .ok (t, base))
    ∧ (∀ (users : UsersTable) (assignments : RoleXpMap)
        (resolved : Option (Option Member)) (u g : Int) (t2 : UsersTable) (v : Int),
      calculate_total_user_xp users assignments resolved u g = .ok (t2, v) →
      (∀ (t : UsersTable) (base : Int) (lvl : Nat),
        get_user_data users u g = .ok (t, base, lvl) → base ≤ v)
      ∧ (∀ u' g', effectiveData t2 u' g' = effectiveData users u' g')) := by
  refine ⟨?_, ?_, ?_⟩
  · intro users assignments m u g t base lvl hget
    unfold calculate_total_user_xp
    rw [hget]
  · intro users assignments resolved u g t base lvl hget hres
    rcases hres with rfl | rfl <;>
      · unfold calculate_total_user_xp
        rw [hget]
        rfl
  · intro users assignments resolved u g t2 v h
    match resolved with
    | none =>
      unfold calculate_total_user_xp at h
      cases hget : get_user_data users u g with
      | error e => rw [hget] at h; simp [Except.map] at h
      | ok x =>
        obtain ⟨t, base, lvl⟩ := x
        rw [hget] at h
        simp only [Except.map, Except.ok.injEq, Prod.mk.injEq] at h
        obtain ⟨rfl, rfl⟩ := h
        refine ⟨?_, (get_spec users u g _ _ _ hget).2.2.1⟩
        intro t' base' lvl' hget'
        simp only [Except.ok.injEq, Prod.mk.injEq] at hget'
        omega
    | some none =>
      unfold calculate_total_user_xp at h
      cases hget : get_user_data users u g with
      | error e => rw [hget] at h; simp [Except.map] at h
      | ok x =>
        obtain ⟨t, base, lvl⟩ := x
        rw [hget] at h
        simp only [Except.map, Except.ok.injEq, Prod.mk.injEq] at h
        obtain ⟨rfl, rfl⟩ := h
        refine ⟨?_, (get_spec users u g _ _ _ hget).2.2.1⟩
        intro t' base' lvl' hget'
        simp only [Except.ok.injEq, Prod.mk.injEq] at hget'
        omega
    | some (some m) =>
      unfold calculate_total_user_xp at h
      cases hget : get_user_data users u g with
      | error e => rw [hget] at h; simp at h
      | ok x =>
        obtain ⟨t, base, lvl⟩ := x
        rw [hget] at h
        simp only [Except.ok.injEq, Prod.mk.injEq] at h
        obtain ⟨rfl, rfl⟩ := h
        refine ⟨?_, (get_spec users u g _ _ _ hget).2.2.1⟩
        intro t' base' lvl' hget'
        simp only [Except.ok.injEq, Prod.mk.injEq] at hget'
        have hb : base' = base := by tauto
        rw [hb]
        exact le_max_left _ _

/-- Witness for C6 at a member holding one unrelated role with 40 base XP. -/
theorem C6_total_xp_witness :
    get_user_data [⟨1, 2, 40, 1⟩] 1 2 = .ok ([⟨1, 2, 40, 1⟩], 40, 1)
    ∧ calculate_total_user_xp [⟨1, 2, 40, 1⟩] [(7, 30)]
        (some (some ⟨[⟨7, "vip".toList⟩]⟩)) 1 2
      = .ok ([⟨1, 2, 40, 1⟩], max 40 (levelRoleXp [⟨7, "vip".toList⟩]
          + customRoleXp [(7, 30)] [⟨7, "vip".toList⟩] + autoRoleXp [⟨7, "vip".toList⟩])) :=
  ⟨rfl, C6_total_xp.1 [⟨1, 2, 40, 1⟩] [(7, 30)] ⟨[⟨7, "vip".toList⟩]⟩ 1 2
    [⟨1, 2, 40, 1⟩] 40 1 rfl⟩

/-- C7, as frozen, is false on the code: the loop's `elif` makes a single
role whose name holds both "badge" and "streak" contribute 5, not the 10
the independent-counts formula demands. -/
theorem C7_counterexample :
    autoRoleXp [badgeStreakRole] = 5 ∧ specAutoRoleXp [badgeStreakRole] = 10 := by
  constructor <;> rfl

/-- C7 (amended): `autoRoleXp` is 5 × (count of held roles whose lowered name
contains "badge") + 5 × (count of held roles whose lowered name contains
"streak" but not "badge") — the `elif` gives "badge" precedence, so a role
containing both substrings contributes 5 once, not to both counts. The
scenario stands: one 30-XP custom role plus a "badge-collector" role at base
xp 0 totals max(0, 0+30+5) = 35. -/
theorem C7_auto_role_xp :
    (∀ roles : List Role,
      autoRoleXp roles
        = 5 * (roles.countP (fun r => containsSub (toLowerName r.name) badgeChars) : Int)
          + 5 * (roles.countP (fun r => !containsSub (toLowerName r.name) badgeChars
              && containsSub (toLowerName r.name) streakChars) : Int))
    ∧ calculate_total_user_xp [⟨1, 2, 0, 1⟩] [(7, 30)]
        (some (some ⟨[⟨7, "vip".toList⟩, ⟨8, "badge-collector".toList⟩]⟩)) 1 2
        = .ok ([⟨1, 2, 0, 1⟩], 35) := by
  constructor
  · intro roles
    have h := autoRoleXp_foldl roles 0
    rw [autoRoleXp, h]
    ring
  · rfl

theorem fstMatch_false {β : Type} (A B : Int) (hAB : B ≠ A) (d : β) :
    ¬fstMatch B ((A, d) : Int × β) = true := by
  simp [fstMatch]
  exact fun h => hAB h.symm

theorem find?_keyed_map_ne {β : Type} (l : List (Int × β)) (A B : Int) (hAB : B ≠ A)
    (f : Int × β → β) :
    (l.map (fun p => if fstMatch A p then (A, f p) else p)).find? (fstMatch B)
      = l.find? (fstMatch B) := by
  induction l with
  | nil => rfl
  | cons a t ih =>
    simp only [List.map_cons]
    by_cases ha : fstMatch A a = true
    · rw [if_pos ha]
      have haA : a.1 = A := by simpa [fstMatch] using ha
      have h2 : ¬fstMatch B a = true := by
        simp [fstMatch, haA]
        exact fun h => hAB h.symm
      rw [List.find?_cons_of_neg _ (fstMatch_false A B hAB (f a)),
        List.find?_cons_of_neg _ h2]
      exact ih
    · rw [if_neg ha]
      by_cases hb : fstMatch B a = true
      · rw [List.find?_cons_of_pos _ hb, List.find?_cons_of_pos _ hb]
      · rw [List.find?_cons_of_neg _ hb, List.find?_cons_of_neg _ hb]
        exact ih

theorem find?_keyed_append_ne {β : Type} (l : List (Int × β)) (A B : Int) (hAB : B ≠ A)
    (d : β) :
    (l ++ [(A, d)]).find? (fstMatch B) = l.find? (fstMatch B) := by
  rw [List.find?_append]
  cases hf : l.find? (fstMatch B) with
  | some r => rw [Option.or_some]
  | none =>
    rw [Option.none_or, List.find?_cons_of_neg _ (fstMatch_false A B hAB d),
      List.find?_nil]

theorem rowMatch_false (A B : Int) (hAB : B ≠ A) (row : SettingsRow)
    (hrow : row.guild_id = A) : ¬rowMatch B row = true := by
  simp [rowMatch, hrow]
  exact fun h => hAB h.symm

theorem find?_settingsRow_map_ne (l : SettingsTable) (A B : Int) (hAB : B ≠ A)
    (row : SettingsRow) (hrow : row.guild_id = A) :
    (l.map (fun r => if rowMatch A r then row else r)).find? (rowMatch B)
      = l.find? (rowMatch B) := by
  induction l with
  | nil => rfl
  | cons a t ih =>
    simp only [List.map_cons]
    by_cases ha : rowMatch A a = true
    · rw [if_pos ha]
      have haA : a.guild_id = A := by simpa [rowMatch] using ha
      rw [List.find?_cons_of_neg _ (rowMatch_false A B hAB row hrow),
        List.find?_cons_of_neg _ (rowMatch_false A B hAB a haA)]
      exact ih
    · rw [if_neg ha]
      by_cases hb : rowMatch B a = true
      · rw [List.find?_cons_of_pos _ hb, List.find?_cons_of_pos _ hb]
      · rw [List.find?_cons_of_neg _ hb, List.find?_cons_of_neg _ hb]
        exact ih

theorem find?_settingsRow_append_ne (l : SettingsTable) (A B : Int) (hAB : B ≠ A)
    (row : SettingsRow) (hrow : row.guild_id = A) :
    (l ++ [row]).find? (rowMatch B) = l.find? (rowMatch B) := by
  rw [List.find?_append]
  cases hf : l.find? (rowMatch B) with
  | some r => rw [Option.or_some]
  | none =>
    rw [Option.none_or, List.find?_cons_of_neg _ (rowMatch_false A B hAB row hrow),
      List.find?_nil]

theorem save_settings_frame (st : SettingsState) (A B : Int) (hAB : B ≠ A) :
    storedSettingsFor (save_settings st A) B = storedSettingsFor st B := by
  unfold save_settings storedSettingsFor
  dsimp only
  by_cases hany : st.settingsTable.any (rowMatch A) = true
  · rw [if_pos hany]
    exact find?_settingsRow_map_ne _ A B hAB _ rfl
  · rw [if_neg hany]
    exact find?_settingsRow_append_ne _ A B hAB _ rfl

/-- C8 (amended): a settings mutation for community A leaves B's durable
settings row untouched, and leaves B's in-memory roleXpAssignments entry
untouched; but questPingRoleId and questChannelId live in process-wide
instance attributes rather than a per-community cache, so mutating them for
A changes the in-memory value the bot consults for B (until B's settings
are next loaded); assignroleXP leaves those two shared attributes alone. -/
theorem C8_settings_isolation (st : SettingsState) (A B : Int) (hAB : B ≠ A)
    (rid cid rid2 amt : Int) :
    storedSettingsFor (set_quest_ping st A rid) B = storedSettingsFor st B
    ∧ storedSettingsFor (set_quest_channel st A cid) B = storedSettingsFor st B
    ∧ storedSettingsFor (assign_role_xp st A rid2 amt) B = storedSettingsFor st B
    ∧ assignmentsFor (set_quest_ping st A rid) B = assignmentsFor st B
    ∧ assignmentsFor (set_quest_channel st A cid) B = assignmentsFor st B
    ∧ assignmentsFor (assign_role_xp st A rid2 amt) B = assignmentsFor st B
    ∧ (assign_role_xp st A rid2 amt).quest_ping_role_id = st.quest_ping_role_id
    ∧ (assign_role_xp st A rid2 amt).quest_channel_id = st.quest_channel_id := by
  refine ⟨?_, ?_, ?_, ?_, ?_, ?_, ?_, ?_⟩
  · exact save_settings_frame _ A B hAB
  · exact save_settings_frame _ A B hAB
  · exact save_settings_frame _ A B hAB
  · rfl
  · rfl
  · show assignmentsFor
        { st with role_xp_assignments :=
            if st.role_xp_assignments.any (fstMatch A)
            then st.role_xp_assignments.map (fun p =>
              if fstMatch A p then (A, dictInsert p.2 rid2 amt) else p)
            else st.role_xp_assignments ++ [(A, dictInsert [] rid2 amt)] } B
      = assignmentsFor st B
    unfold assignmentsFor
    dsimp only
    by_cases hany : st.role_xp_assignments.any (fstMatch A) = true
    · rw [if_pos hany, find?_keyed_map_ne _ A B hAB]
    · rw [if_neg hany, find?_keyed_append_ne _ A B hAB]
  · rfl
  · rfl

/-- Witness for C8's amended theorem at the concrete two-guild state. -/
theorem C8_settings_isolation_witness :
    (2 : Int) ≠ 1
    ∧ (storedSettingsFor (set_quest_ping twoGuildSettings 1 99) 2
          = storedSettingsFor twoGuildSettings 2
      ∧ storedSettingsFor (set_quest_channel twoGuildSettings 1 55) 2
          = storedSettingsFor twoGuildSettings 2
      ∧ storedSettingsFor (assign_role_xp twoGuildSettings 1 7 30) 2
          = storedSettingsFor twoGuildSettings 2
      ∧ assignmentsFor (set_quest_ping twoGuildSettings 1 99) 2
          = assignmentsFor twoGuildSettings 2
      ∧ assignmentsFor (set_quest_channel twoGuildSettings 1 55) 2
          = assignmentsFor twoGuildSettings 2
      ∧ assignmentsFor (assign_role_xp twoGuildSettings 1 7 30) 2
          = assignmentsFor twoGuildSettings 2
      ∧ (assign_role_xp twoGuildSettings 1 7 30).quest_ping_role_id
          = twoGuildSettings.quest_ping_role_id
      ∧ (assign_role_xp twoGuildSettings 1 7 30).quest_channel_id
          = twoGuildSettings.quest_channel_id) :=
  ⟨by decide, C8_settings_isolation twoGuildSettings 1 2 (by decide) 99 55 7 30⟩

/-- C8, as frozen, is false on the code: `quest_ping_role_id` is one shared
instance attribute, so a questping mutation for guild 1 changes the
in-memory quest ping role the bot consults for guild 2 (loaded as 77 from
guild 2's row), even though guild 2's durable row stays untouched. -/
theorem C8_counterexample :
    cachedSettingsFor (set_quest_ping twoGuildSettings 1 99) 2
        ≠ cachedSettingsFor twoGuildSettings 2
    ∧ cachedSettingsFor twoGuildSettings 2 = (some 77, none, [])
    ∧ cachedSettingsFor (set_quest_ping twoGuildSettings 1 99) 2 = (some 99, none, [])
    ∧ storedSettingsFor (set_quest_ping twoGuildSettings 1 99) 2
        = storedSettingsFor twoGuildSettings 2 :=
  ⟨by decide, rfl, rfl, rfl⟩

/-- C10: an adjust schedules a reconcile task iff the stored level changed
(then exactly one, carrying the old and new levels), and the adjust's result
is detached from reconciliation: for every platform state and every pattern
of caught platform failures, the committed users table and the returned
(newXp, newLevel) are the same — reconciliation transforms only the platform
state, returning normally on every input, and rolls nothing back. -/
theorem C10_reconcile_detached (t : UsersTable) (u g δ : Int) (t2 : UsersTable)
    (nxp : Int) (nlvl : Nat) (tasks : List ReconcileTask)
    (hupd : update_user_xp t u g δ = .ok (t2, nxp, nlvl, tasks)) :
    (tasks ≠ [] ↔ (effectiveData t u g).2 ≠ nlvl)
    ∧ ((effectiveData t u g).2 ≠ nlvl →
        tasks = [⟨u, g, (effectiveData t u g).2, nlvl⟩])
    ∧ (∀ (ps : PlatformState) (f : FailPattern),
        adjust_then_reconcile t ps f u g δ
          = .ok (t2, nxp, nlvl, runTasks ps f tasks)) := by
  obtain ⟨_, _, _, htasks, _⟩ := update_spec t u g δ t2 nxp nlvl tasks hupd
  refine ⟨?_, ?_, ?_⟩
  · rw [htasks]
    by_cases h : (effectiveData t u g).2 ≠ nlvl
    · rw [if_pos h]
      simp [h]
    · rw [if_neg h]
      simp [h]
  · intro h
    rw [htasks, if_pos h]
  · intro ps f
    unfold adjust_then_reconcile
    rw [hupd]

/-- Witness for C10: a +20 adjust from xp 90 crosses the level-2 threshold,
schedules exactly one task, and returns the same committed result for every
platform state and failure pattern. -/
theorem C10_reconcile_detached_witness :
    update_user_xp [⟨3, 4, 90, 1⟩] 3 4 20 = .ok ([⟨3, 4, 110, 2⟩], 110, 2, [⟨3, 4, 1, 2⟩])
    ∧ ((([⟨3, 4, 1, 2⟩] : List ReconcileTask) ≠ []
          ↔ (effectiveData [⟨3, 4, 90, 1⟩] 3 4).2 ≠ 2)
      ∧ ((effectiveData [⟨3, 4, 90, 1⟩] 3 4).2 ≠ 2 →
          ([⟨3, 4, 1, 2⟩] : List ReconcileTask) = [⟨3, 4, 1, 2⟩])
      ∧ (∀ (ps : PlatformState) (f : FailPattern),
          adjust_then_reconcile [⟨3, 4, 90, 1⟩] ps f 3 4 20
            = .ok ([⟨3, 4, 110, 2⟩], 110, 2, runTasks ps f [⟨3, 4, 1, 2⟩]))) :=
  ⟨by rfl,
   C10_reconcile_detached [⟨3, 4, 90, 1⟩] 3 4 20 [⟨3, 4, 110, 2⟩] 110 2 [⟨3, 4, 1, 2⟩]
     (by rfl)⟩

end QuestBot
